import Mathlib

/-!
Verification of the BudgetWise core: ingestion/categorization pipeline and
forecasting engine, shallowly embedded from `src/app.py` and
`src/utils/predictor.py` / `src/utils/data_processor.py`.

Machine floats are modelled by exact rationals (`ℚ`), with the IEEE NaN a
Python `float` parse can produce represented explicitly where it is
reachable (`FloatVal`); calendar dates by `ℤ` day numbers; Python
exceptions by `Except`; the NumPy random draws and the opaque LSTM model
outputs by oracle parameters (`ℕ → ℚ`).
-/

namespace BudgetWise

/-- ASCII lower-casing of one character, as Python `str.lower` acts on the
ASCII range (all keyword tables in the source are ASCII). -/
def lowerChar (c : Char) : Char :=
  if 'A' ≤ c ∧ c ≤ 'Z' then Char.ofNat (c.toNat + 32) else c

/-- Python `s.lower()` on a string. -/
def lowerStr (s : String) : String := String.mk (s.toList.map lowerChar)

/-- Whether `p` occurs at the start of `s`. -/
def leadsList (p s : List Char) : Bool :=
  match p, s with
  | [], _ => true
  | _ :: _, [] => false
  | a :: p1, b :: s1 => a == b && leadsList p1 s1

/-- Python's `p in s` substring test: `p` occurs contiguously inside `s`. -/
def occursInList (p s : List Char) : Bool :=
  match s with
  | [] => p.isEmpty
  | c :: t => leadsList p (c :: t) || occursInList p t

/-- Substring test on strings (Python `p in s`). -/
def occursIn (p s : String) : Bool := occursInList p.toList s.toList

/-- Python `s[:n]`. -/
def takeStr (n : ℕ) (s : String) : String := String.mk (s.toList.take n)

/-- The ordered category → keyword table of
`DataProcessor.categorize_transaction` in `src/app.py` (lines 327–358),
transcribed in declaration order. -/
def appCategories : List (String × List String) :=
  [ ("Food & Dining", ["swiggy", "zomato", "restaurant", "food", "coffee", "lunch", "dinner",
      "breakfast", "cafe", "pizza", "burger", "biryani", "meals", "eat",
      "dominos", "mcdonalds", "kfc", "subway", "starbucks", "hotel", "dhaba",
      "canteen", "mess", "tiffin", "snacks", "juice", "bakery", "sweet"]),
    ("Transportation", ["uber", "ola", "rapido", "petrol", "fuel", "metro", "bus", "train",
      "cab", "taxi", "auto", "parking", "toll", "irctc", "flight",
      "diesel", "cng", "transit", "transport", "travel"]),
    ("Shopping", ["amazon", "flipkart", "myntra", "shopping", "mall", "store", "market",
      "fashion", "clothes", "shoes", "ajio", "nykaa", "meesho", "shop",
      "purchase", "buy", "ebay", "walmart", "retail"]),
    ("Entertainment", ["movie", "netflix", "hotstar", "spotify", "game", "cinema", "pvr",
      "inox", "bookmyshow", "youtube", "prime", "sony", "zee5",
      "theater", "concert", "event", "party", "club"]),
    ("Utilities", ["electricity", "water", "gas", "internet", "mobile", "bill", "recharge",
      "broadband", "wifi", "jio", "airtel", "vodafone", "dth", "electric",
      "postpaid", "prepaid", "landline", "maintenance"]),
    ("Healthcare", ["medical", "doctor", "hospital", "pharmacy", "medicine", "health",
      "clinic", "apollo", "fortis", "1mg", "pharmeasy", "gym", "fitness",
      "diagnostic", "lab", "test", "consultation", "treatment"]),
    ("Groceries", ["grocery", "bigbasket", "zepto", "blinkit", "vegetable", "fruit",
      "milk", "grofers", "dmart", "more", "reliance", "fresh", "mart",
      "supermarket", "kirana", "provision", "ration"]),
    ("Education", ["course", "udemy", "coursera", "school", "college", "book", "training",
      "class", "tuition", "fees", "exam", "study", "university",
      "academy", "institute", "education", "learning"]),
    ("Investment", ["mutual fund", "sip", "stock", "trading", "fd", "ppf", "investment",
      "zerodha", "groww", "upstox", "insurance", "lic", "policy",
      "deposit", "savings", "nps", "gold"]),
    ("Transfer", ["transfer", "upi", "neft", "imps", "paytm", "phonepe", "gpay",
      "google pay", "sent", "payment", "razorpay", "cashback", "refund"]) ]

/-- The nested keyword loop of `categorize_transaction`: scan the category
table in order, return the first category one of whose keywords occurs in
the (already lower-cased) description `d`. -/
def firstMatch (d : String) : List (String × List String) → Option String
  | [] => none
  | (cat, kws) :: rest =>
    if kws.any (fun kw => occursIn kw d) then some cat
    else firstMatch d rest

/-- Function `DataProcessor.categorize_transaction` from `src/app.py`: `none` models
Python `None`; the empty string is falsy, so `if not description` also sends
it to `Others`. -/
def categorize_transaction (description : Option String) : String :=
  match description with
  | none => "Others"
  | some s =>
    if s = "" then "Others"
    else
      match firstMatch (lowerStr s) appCategories with
      | some cat => cat
      | none => "Others"

theorem firstMatch_eq_find? (d : String) (L : List (String × List String)) :
    firstMatch d L =
      (L.find? (fun ck => ck.2.any (fun kw => occursIn kw d))).map Prod.fst := by
  induction L with
  | nil => rfl
  | cons hd tl ih =>
    obtain ⟨cat, kws⟩ := hd
    show (if kws.any (fun kw => occursIn kw d) then some cat else firstMatch d tl) = _
    rw [List.find?_cons]
    cases h : kws.any (fun kw => occursIn kw d)
    · rw [if_neg (by simp [h]), ih]
    · rw [if_pos (by simp [h])]
      rfl

/-- C2: The category classifier scans categories in declaration order and
returns the first category having a keyword that is a substring of the
lower-cased description; it is total, returning `Others` for no match, the
empty string, and `None`; and the three concrete examples hold. -/
theorem C2_classifier_first_match :
    (∀ s : String, categorize_transaction (some s) =
      (((appCategories.find?
          (fun ck => ck.2.any (fun kw => occursIn kw (lowerStr s)))).map Prod.fst).getD "Others")) ∧
    categorize_transaction none = "Others" ∧
    categorize_transaction (some "") = "Others" ∧
    categorize_transaction (some "Swiggy order #123") = "Food & Dining" ∧
    categorize_transaction (some "UBER RIDE to airport") = "Transportation" := by
  refine ⟨?_, rfl, by decide, by decide, by decide⟩
  intro s
  by_cases hs : s = ""
  · subst hs; decide
  · show (if s = "" then "Others" else _) = _
    rw [if_neg hs, firstMatch_eq_find?]
    cases h : (appCategories.find?
        (fun ck => ck.2.any (fun kw => occursIn kw (lowerStr s)))) <;> rfl

/-! Section: Transaction normalization (`DataProcessor.process_csv`, `src/app.py` 394–447) -/

/-- The outcome of Python `float(...)` on an amount cell: a real value
(modelled exactly by `ℚ`), or the IEEE NaN that a blank or `'nan'` cell
yields — `float('nan')` succeeds, it does not raise.  The distinction
matters because NaN then flows through `abs` and the `amount <= 0`
comparison with IEEE semantics. -/
inductive FloatVal
  | val (x : ℚ)
  | nan
deriving DecidableEq

/-- Python `abs` on a float: `abs(nan) = nan`. -/
def FloatVal.abs : FloatVal → FloatVal
  | .val x => .val |x|
  | .nan => .nan

/-- The IEEE comparison `a <= 0`: `False` when `a` is NaN. -/
def FloatVal.le0 : FloatVal → Bool
  | .val x => decide (x ≤ 0)
  | .nan => false

/-- The IEEE comparison `a > 0`: `False` when `a` is NaN (NaN is not
greater than zero). -/
def FloatVal.gt0 : FloatVal → Bool
  | .val x => decide (0 < x)
  | .nan => false

/-- A raw CSV row after cell-level parsing. `dateParsed` is the result of
`pd.to_datetime(date_str, dayfirst=True)` as a day number (`none` = the parse
raised, or the table has no date column, so the row is skipped);
`amountParsed` is `float(amount_str)` after separator/currency stripping:
`none` = the parse raised (or no amount column), `some .nan` = a blank or
`'nan'` cell (`str(cell)` is `'nan'` and `float` returns NaN without
raising), `some (.val x)` = a real value; `descCell` is the description
cell (`none` = no description column or a NaN cell). -/
structure RawRow where
  dateParsed : Option ℤ
  amountParsed : Option FloatVal
  descCell : Option String
deriving DecidableEq

/-- A canonical transaction as appended by `process_csv`.  The amount is a
float outcome: the source can and does store NaN (see claim C5). -/
structure Tx where
  date : ℤ
  description : String
  amount : FloatVal
  category : String
  type : String
deriving DecidableEq

/-- The income-signal keyword list of `process_csv` (line 427). -/
def incomeKeywords : List String :=
  ["credit", "received", "refund", "cashback", "salary"]

/-- The body of the per-row loop of `process_csv` (lines 397–440): skip on
missing/unparseable date or amount, take `abs` of the amount and skip if
`amount <= 0` — an IEEE comparison, so a NaN amount is NOT skipped —
default the description to `"Transaction"`, categorize from the full
description, infer the type, store the description truncated to 200
characters. -/
def normRow (r : RawRow) : Option Tx :=
  match r.dateParsed with
  | none => none
  | some d =>
    match r.amountParsed with
    | none => none
    | some a0 =>
      let amount := a0.abs
      if amount.le0 then none
      else
        let description := r.descCell.getD "Transaction"
        let category := categorize_transaction (some description)
        let ttype :=
          if incomeKeywords.any (fun w => occursIn w (lowerStr description))
          then "income" else "expense"
        some ⟨d, takeStr 200 description, amount, category, ttype⟩

/-- The accumulation loop of `process_csv`: rows are processed in order and
valid ones appended to the output list. -/
def process_csv : List RawRow → List Tx
  | [] => []
  | r :: rest =>
    match normRow r with
    | none => process_csv rest
    | some t => t :: process_csv rest

/-! Section: `DataProcessor._clean_data` (`src/utils/data_processor.py` 160–179):
drop NaN amounts, take absolute values, keep `amount > 0`, sort by date.
`pandas.sort_values` uses an unspecified (quicksort) permutation; it is
modelled by `mergeSort`, which agrees on membership and date order. -/

/-- A row reaching `_clean_data`: `none` amount models NaN. -/
structure CRow where
  date : ℤ
  amount : Option ℚ
deriving DecidableEq

/-- Function `_clean_data` on the fields relevant to its contract. -/
def clean_data (rows : List CRow) : List (ℤ × ℚ) :=
  (((rows.filterMap (fun r => r.amount.map (fun a => (r.date, |a|))))).filter
      (fun p => 0 < p.2)).mergeSort (fun p q => p.1 ≤ q.1)

theorem normRow_amount_guard (r : RawRow) (t : Tx) (h : normRow r = some t) :
    t.amount.le0 = false := by
  unfold normRow at h
  cases hd : r.dateParsed with
  | none => rw [hd] at h; exact absurd h (by simp)
  | some d =>
    rw [hd] at h
    cases ha : r.amountParsed with
    | none => rw [ha] at h; exact absurd h (by simp)
    | some a0 =>
      rw [ha] at h
      dsimp only at h
      by_cases hle : a0.abs.le0 = true
      · rw [if_pos hle] at h; exact absurd h (by simp)
      · rw [if_neg hle] at h
        have ht := Option.some.inj h
        rw [← ht]
        simpa using hle

theorem process_csv_eq_filterMap (rows : List RawRow) :
    process_csv rows = rows.filterMap normRow := by
  induction rows with
  | nil => rfl
  | cons r rest ih =>
    show (match normRow r with
          | none => process_csv rest
          | some t => t :: process_csv rest) = _
    rw [List.filterMap_cons]
    cases normRow r <;> simp [ih]

theorem clean_data_amount_pos (rows : List CRow) :
    ∀ p ∈ clean_data rows, 0 < p.2 := by
  intro p hp
  unfold clean_data at hp
  have hp' := List.Perm.mem_iff (List.mergeSort_perm _ _) |>.mp hp
  exact (List.mem_filter.mp hp').2 |> of_decide_eq_true

/-- C5: code bug — the claim (and the spec's §3 invariant) says any row
whose parsed amount is not positive is skipped, yet `process_csv` stores a
row whose amount cell parses to IEEE NaN: `float('nan')` succeeds on a
blank/`'nan'` cell, `abs(NaN) = NaN`, and the guard `if amount <= 0:
continue` (app.py 415) does not fire because `NaN <= 0` is `False`, so the
transaction is appended with `amount = NaN`, which is not `> 0`.  The
intent is witnessed by the guard itself, by the sibling normalizer
`_clean_data`, which does `dropna(subset=['amount'])` before filtering
`amount > 0` (`clean_data_amount_pos`), and by the guard's guarantee for
every non-NaN parse (`normRow_amount_guard`). -/
theorem C5_nan_amount_row_stored :
    process_csv [⟨some 0, some FloatVal.nan, some "x"⟩]
      = [⟨0, "x", FloatVal.nan, "Others", "expense"⟩] ∧
    FloatVal.nan.gt0 = false ∧ FloatVal.nan.le0 = false :=
  ⟨by decide, rfl, rfl⟩

/-- C8 counterexample: `process_csv` applies no sort: two valid rows
with dates 5 then 3 come out in input order `[5, 3]`, which is not
ascending. -/
theorem C8_counterexample_not_sorted :
    ((process_csv [⟨some 5, some (FloatVal.val 10), some "x"⟩, ⟨some 3, some (FloatVal.val 10), some "y"⟩]).map Tx.date)
        = [5, 3] ∧
    ¬ ((process_csv [⟨some 5, some (FloatVal.val 10), some "x"⟩,
        ⟨some 3, some (FloatVal.val 10), some "y"⟩]).map Tx.date).Sorted (· ≤ ·) := by
  constructor
  · decide
  · intro hs
    have h512 : ((process_csv [(⟨some 5, some (FloatVal.val 10), some "x"⟩ : RawRow),
        ⟨some 3, some (FloatVal.val 10), some "y"⟩]).map Tx.date) = [5, 3] := by decide
    rw [h512] at hs
    have := List.rel_of_sorted_cons hs 3 (by simp)
    omega

/-- C8 amended: Normalization preserves the original row order: the
output is exactly the in-order `filterMap` of the row normalizer, and
processing distributes over concatenation of row batches (no reordering of
any kind, hence ties and non-ties alike keep input order). -/
theorem C8_amended_original_order :
    (∀ rows : List RawRow, process_csv rows = rows.filterMap normRow) ∧
    (∀ l1 l2 : List RawRow, process_csv (l1 ++ l2) = process_csv l1 ++ process_csv l2) := by
  refine ⟨process_csv_eq_filterMap, fun l1 l2 => ?_⟩
  rw [process_csv_eq_filterMap, process_csv_eq_filterMap, process_csv_eq_filterMap,
    List.filterMap_append]

/-- C10: The stored category is computed from the full description while
the stored description is truncated to 200 characters: for a row whose only
keyword (`swiggy`) starts at position 200, the stored category is
`Food & Dining` but re-classifying the stored description yields `Others`. -/
theorem C10_truncated_reclassification_differs :
    (process_csv [⟨some 0, some (FloatVal.val 5), some (String.mk (List.replicate 200 'a') ++ "swiggy")⟩]).map
        Tx.category = ["Food & Dining"] ∧
    (process_csv [⟨some 0, some (FloatVal.val 5), some (String.mk (List.replicate 200 'a') ++ "swiggy")⟩]).map
        (fun t => categorize_transaction (some t.description)) = ["Others"] ∧
    ("Food & Dining" : String) ≠ "Others" := by
  exact ⟨by decide, by decide, by decide⟩

/-! Section: Column resolution (`DataProcessor._identify_columns`,
`src/utils/data_processor.py` 113–158) -/

/-- An input column as seen by `_identify_columns`: its header, whether its
pandas dtype is numeric (`float64`/`int64`), and how many of its cells
survive `pd.to_datetime(..., errors='coerce')` (for the >80% inference). -/
structure RawCol where
  header : String
  isNumericDtype : Bool
  dateOkCount : ℕ
deriving DecidableEq

def dateSyns : List String :=
  ["date", "transaction date", "trans date", "txn date", "value date"]

def descSyns : List String :=
  ["description", "narration", "remarks", "particulars", "details"]

def amountSyns : List String :=
  ["amount", "debit", "withdrawal", "txn amount", "transaction amount"]

def balanceSyns : List String :=
  ["balance", "closing balance", "available balance"]

/-- Where the resolved `date` column comes from. -/
inductive DateSource
  | col (header : String)
  | inferred (header : String)
  | now
deriving DecidableEq

/-- Where the resolved `description` column comes from (`defaultLit` stands
for the literal `"Transaction"` fallback). -/
inductive DescSource
  | col (header : String)
  | defaultLit
deriving DecidableEq

structure ResolvedCols where
  date : DateSource
  description : DescSource
  amount : String
  balance : Option String
deriving DecidableEq

/-- First column whose lower-cased header contains one of the synonyms
(`any(name in col.lower() for name in possible_names)`). -/
def findSyn (cols : List RawCol) (syns : List String) : Option RawCol :=
  cols.find? (fun c => syns.any (fun s => occursIn s (lowerStr c.header)))

/-- Function `_identify_columns`: synonym scan per target, then inference for a
missing date (first column with > 80 % date-parseable cells) or amount
(first numeric-dtype column); `description` defaults to the literal
`"Transaction"`, a missing amount raises `ValueError`, and a missing date
defaults to `pd.Timestamp.now()`. -/
def identify_columns (cols : List RawCol) (nRows : ℕ) : Except String ResolvedCols :=
  let dateResolved : Option DateSource :=
    match findSyn cols dateSyns with
    | some c => some (.col c.header)
    | none =>
      -- `notna().sum() > len(df) * 0.8`, written exactly over ℕ
      (cols.find? (fun c => decide (nRows * 4 < c.dateOkCount * 5))).map
        (fun c => .inferred c.header)
  let amountResolved : Option String :=
    match findSyn cols amountSyns with
    | some c => some c.header
    | none => (cols.find? (fun c => c.isNumericDtype)).map (fun c => c.header)
  match amountResolved with
  | none => .error "Could not identify amount column in CSV"
  | some ah =>
    .ok { date := dateResolved.getD .now,
          description := match findSyn cols descSyns with
            | some c => .col c.header
            | none => .defaultLit,
          amount := ah,
          balance := (findSyn cols balanceSyns).map (fun c => c.header) }

theorem identify_columns_ok_fields (cols : List RawCol) (nRows : ℕ) (r : ResolvedCols)
    (hr : identify_columns cols nRows = .ok r) :
    r.description = (match findSyn cols descSyns with
      | some c => DescSource.col c.header
      | none => DescSource.defaultLit) ∧
    r.date = ((match findSyn cols dateSyns with
      | some c => some (DateSource.col c.header)
      | none => (cols.find? (fun c => decide (nRows * 4 < c.dateOkCount * 5))).map
          (fun c => DateSource.inferred c.header)) : Option DateSource).getD DateSource.now := by
  unfold identify_columns at hr
  cases hA : findSyn cols amountSyns with
  | some c =>
    rw [hA] at hr
    have h := Except.ok.inj hr
    rw [← h]
    exact ⟨rfl, rfl⟩
  | none =>
    rw [hA] at hr
    cases hN : cols.find? (fun c => c.isNumericDtype) with
    | none =>
      rw [hN] at hr
      exact absurd hr (fun h => Except.noConfusion h)
    | some c =>
      rw [hN] at hr
      have h := Except.ok.inj hr
      rw [← h]
      exact ⟨rfl, rfl⟩

/-- C9: Amount is the only mandatory column: if no header matches an
amount synonym and no column is numeric, resolution fails with the
"could not identify amount column" error; otherwise an unresolvable
description defaults to the literal `"Transaction"` and an unresolvable
date defaults to the current processing date. -/
theorem C9_amount_mandatory (cols : List RawCol) (nRows : ℕ) :
    ((∀ c ∈ cols, (amountSyns.any (fun s => occursIn s (lowerStr c.header))) = false) →
     (∀ c ∈ cols, c.isNumericDtype = false) →
     identify_columns cols nRows = .error "Could not identify amount column in CSV") ∧
    (∀ r, identify_columns cols nRows = .ok r →
      ((∀ c ∈ cols, (descSyns.any (fun s => occursIn s (lowerStr c.header))) = false) →
        r.description = .defaultLit) ∧
      ((∀ c ∈ cols, (dateSyns.any (fun s => occursIn s (lowerStr c.header))) = false) →
       (∀ c ∈ cols, ¬ (nRows * 4 < c.dateOkCount * 5)) →
        r.date = .now)) := by
  constructor
  · intro hsyn hnum
    have h1 : findSyn cols amountSyns = none := by
      apply List.find?_eq_none.mpr
      intro c hc
      simp [hsyn c hc]
    have h2 : cols.find? (fun c => c.isNumericDtype) = none := by
      apply List.find?_eq_none.mpr
      intro c hc
      simp [hnum c hc]
    unfold identify_columns
    rw [h1, h2]
    rfl
  · intro r hr
    have hfields := identify_columns_ok_fields cols nRows r hr
    constructor
    · intro hdesc
      have h1 : findSyn cols descSyns = none := by
        apply List.find?_eq_none.mpr
        intro c hc
        simp [hdesc c hc]
      rw [hfields.1, h1]
    · intro hdate hfrac
      have h1 : findSyn cols dateSyns = none := by
        apply List.find?_eq_none.mpr
        intro c hc
        simp [hdate c hc]
      have h2 : cols.find? (fun c => decide (nRows * 4 < c.dateOkCount * 5)) = none := by
        apply List.find?_eq_none.mpr
        intro c hc
        simp [hfrac c hc]
      rw [hfields.2, h1, h2]
      rfl

/-- C9 witness: a table with a lone unrelated non-numeric column fails
with the amount error; a table whose only header is `"Txn Amount"` resolves
amount by synonym while description and date take their defaults. -/
theorem C9_amount_mandatory_witness :
    identify_columns [⟨"Foo", false, 0⟩] 1
        = .error "Could not identify amount column in CSV" ∧
    identify_columns [⟨"Txn Amount", true, 0⟩] 1
        = .ok ⟨.now, .defaultLit, "Txn Amount", none⟩ ∧
    (DescSource.defaultLit = .defaultLit ∧ DateSource.now = .now) := by
  refine ⟨(C9_amount_mandatory [⟨"Foo", false, 0⟩] 1).1 (by decide) (by decide),
    by rfl, ?_⟩
  have h := (C9_amount_mandatory [⟨"Txn Amount", true, 0⟩] 1).2
    ⟨.now, .defaultLit, "Txn Amount", none⟩ (by rfl)
  exact ⟨h.1 (by decide), h.2 (by decide) (by decide)⟩

/-! Section: Daily series construction (`LSTMPredictor.prepare_data`,
`src/utils/predictor.py` 58–90).  A forecasting input row is a
`(date, amount)` pair with the date as a day number. -/

/-- Pandas `.min()` over a nonempty column (0 is an arbitrary value for the
empty case, which the source never reaches: on an empty frame
`date_range(NaT, NaT)` raises and `prepare_data` returns `None`). -/
def minList (l : List ℤ) : ℤ :=
  match l with
  | [] => 0
  | a :: t => t.foldl min a

/-- Pandas `.max()` over a nonempty column. -/
def maxList (l : List ℤ) : ℤ :=
  match l with
  | [] => 0
  | a :: t => t.foldl max a

/-- The sum `df.groupby('date')['amount'].sum()` evaluated at one date, which after
the gap-filling merge is also the value of a `fillna(0)` day. -/
def sumOn (txs : List (ℤ × ℚ)) (d : ℤ) : ℚ :=
  ((txs.filter (fun t => decide (t.1 = d))).map Prod.snd).sum

/-- Function `prepare_data`: aggregate amounts by date and re-index on the contiguous
`date_range(min, max, freq='D')`, filling missing days with 0.  An empty
input makes `date_range` raise, which the source turns into `None`,
modelled by `[]`. -/
def prepare_data (txs : List (ℤ × ℚ)) : List (ℤ × ℚ) :=
  match txs with
  | [] => []
  | _ :: _ =>
    let lo := minList (txs.map Prod.fst)
    let hi := maxList (txs.map Prod.fst)
    (List.range (hi - lo + 1).toNat).map
      (fun i : ℕ => (lo + (i : ℤ), sumOn txs (lo + (i : ℤ))))

theorem foldl_min_le_init (a : ℤ) (l : List ℤ) : List.foldl min a l ≤ a := by
  induction l generalizing a with
  | nil => exact le_refl a
  | cons b t ih => exact le_trans (ih (min a b)) (min_le_left a b)

theorem foldl_min_le_mem (a x : ℤ) (l : List ℤ) (hx : x ∈ l) : List.foldl min a l ≤ x := by
  induction l generalizing a with
  | nil => exact absurd hx (List.not_mem_nil x)
  | cons b t ih =>
    rcases List.mem_cons.mp hx with h | h
    · subst h
      exact le_trans (foldl_min_le_init (min a x) t) (min_le_right a x)
    · exact ih (min a b) h

theorem le_foldl_max_init (a : ℤ) (l : List ℤ) : a ≤ List.foldl max a l := by
  induction l generalizing a with
  | nil => exact le_refl a
  | cons b t ih => exact le_trans (le_max_left a b) (ih (max a b))

theorem mem_le_foldl_max (a x : ℤ) (l : List ℤ) (hx : x ∈ l) : x ≤ List.foldl max a l := by
  induction l generalizing a with
  | nil => exact absurd hx (List.not_mem_nil x)
  | cons b t ih =>
    rcases List.mem_cons.mp hx with h | h
    · subst h
      exact le_trans (le_max_right a x) (le_foldl_max_init (max a x) t)
    · exact ih (max a b) h

theorem minList_le_maxList (a : ℤ) (l : List ℤ) :
    minList (a :: l) ≤ maxList (a :: l) :=
  le_trans (foldl_min_le_init a l) (le_foldl_max_init a l)

theorem prepare_data_eq (t0 : ℤ × ℚ) (rest : List (ℤ × ℚ)) :
    prepare_data (t0 :: rest) =
      (List.range ((maxList ((t0 :: rest).map Prod.fst)
          - minList ((t0 :: rest).map Prod.fst) + 1)).toNat).map
        (fun i : ℕ => (minList ((t0 :: rest).map Prod.fst) + (i : ℤ),
          sumOn (t0 :: rest) (minList ((t0 :: rest).map Prod.fst) + (i : ℤ)))) := rfl

theorem countP_range_shift (lo c : ℤ) (n : ℕ) :
    (List.range n).countP (fun i : ℕ => decide (lo + (i : ℤ) = c))
      = if lo ≤ c ∧ c < lo + n then 1 else 0 := by
  induction n with
  | zero =>
    rw [List.range_zero, List.countP_nil, if_neg]
    push_cast
    omega
  | succ n ih =>
    rw [List.range_succ, List.countP_append, ih, List.countP_cons, List.countP_nil]
    clear ih
    by_cases h : lo + (n : ℤ) = c
    · rw [decide_eq_true h]
      split_ifs <;> first | omega | simp_all
    · rw [decide_eq_false h]
      split_ifs <;> first | omega | simp_all

/-- C7: For nonempty input the daily series is sorted strictly
ascending, contiguous (each date is the previous plus one day), contains
exactly one point per calendar day of `[min date, max date]` and none
outside it, and a day with no transaction carries total 0. -/
theorem C7_daily_series_contiguous (txs : List (ℤ × ℚ)) (hne : txs ≠ []) :
    ((prepare_data txs).map Prod.fst).Sorted (· < ·) ∧
    (∀ i (h1 : i + 1 < (prepare_data txs).length),
      ((prepare_data txs).get ⟨i + 1, h1⟩).1
        = ((prepare_data txs).get ⟨i, Nat.lt_of_succ_lt h1⟩).1 + 1) ∧
    (∀ d : ℤ, (prepare_data txs).countP (fun p => decide (p.1 = d))
      = if minList (txs.map Prod.fst) ≤ d ∧ d ≤ maxList (txs.map Prod.fst)
        then 1 else 0) ∧
    (∀ p ∈ prepare_data txs, (∀ t ∈ txs, t.1 ≠ p.1) → p.2 = 0) := by
  obtain ⟨t0, rest, rfl⟩ : ∃ t0 rest, txs = t0 :: rest := by
    cases txs with
    | nil => exact absurd rfl hne
    | cons a l => exact ⟨a, l, rfl⟩
  set lo := minList ((t0 :: rest).map Prod.fst) with hlo
  set hi := maxList ((t0 :: rest).map Prod.fst) with hhi
  have hlohi : lo ≤ hi := by
    rw [hlo, hhi, List.map_cons]
    exact minList_le_maxList _ _
  have hcast : (((hi - lo + 1)).toNat : ℤ) = hi - lo + 1 :=
    Int.toNat_of_nonneg (by omega)
  rw [prepare_data_eq, ← hlo, ← hhi]
  refine ⟨?_, ?_, ?_, ?_⟩
  · rw [List.map_map]
    have heq : (Prod.fst ∘ fun i : ℕ => (lo + (i : ℤ), sumOn (t0 :: rest) (lo + (i : ℤ))))
        = fun i : ℕ => lo + (i : ℤ) := rfl
    rw [heq]
    exact List.Pairwise.map _ (fun a b hab => by omega) (List.sorted_lt_range _)
  · intro i h1
    have hlen : ((List.range ((hi - lo + 1)).toNat).map
        (fun i : ℕ => (lo + (i : ℤ), sumOn (t0 :: rest) (lo + (i : ℤ))))).length
          = ((hi - lo + 1)).toNat := by
      rw [List.length_map, List.length_range]
    have hi1 : i + 1 < ((hi - lo + 1)).toNat := by rw [hlen] at h1; exact h1
    simp only [List.get_eq_getElem, List.getElem_map, List.getElem_range]
    push_cast
    ring
  · intro d
    rw [List.countP_map]
    have heq : ((fun p : ℤ × ℚ => decide (p.1 = d)) ∘
        fun i : ℕ => (lo + (i : ℤ), sumOn (t0 :: rest) (lo + (i : ℤ))))
          = fun i : ℕ => decide (lo + (i : ℤ) = d) := rfl
    rw [heq, countP_range_shift]
    by_cases h : lo ≤ d ∧ d < lo + ((hi - lo + 1)).toNat
    · rw [if_pos h, if_pos (by omega)]
    · rw [if_neg h, if_neg (by omega)]
  · intro p hp hnotx
    obtain ⟨i, _, rfl⟩ := List.mem_map.mp hp
    show sumOn (t0 :: rest) (lo + (i : ℤ)) = 0
    unfold sumOn
    have hnil : (t0 :: rest).filter (fun t => decide (t.1 = lo + (i : ℤ))) = [] := by
      rw [List.filter_eq_nil_iff]
      intro t ht
      simpa using hnotx t ht
    rw [hnil]
    rfl

/-- C7 witness: the series for dates `{0, 2}` is `[(0,5),(1,0),(2,7)]`
and satisfies all four conjuncts. -/
theorem C7_daily_series_contiguous_witness :
    ([((0 : ℤ), (5 : ℚ)), (2, 7)] ≠ ([] : List (ℤ × ℚ))) ∧
    (((prepare_data [((0 : ℤ), (5 : ℚ)), (2, 7)]).map Prod.fst).Sorted (· < ·) ∧
    (∀ i (h1 : i + 1 < (prepare_data [((0 : ℤ), (5 : ℚ)), (2, 7)]).length),
      ((prepare_data [((0 : ℤ), (5 : ℚ)), (2, 7)]).get ⟨i + 1, h1⟩).1
        = ((prepare_data [((0 : ℤ), (5 : ℚ)), (2, 7)]).get ⟨i, Nat.lt_of_succ_lt h1⟩).1 + 1) ∧
    (∀ d : ℤ, (prepare_data [((0 : ℤ), (5 : ℚ)), (2, 7)]).countP (fun p => decide (p.1 = d))
      = if minList (([((0 : ℤ), (5 : ℚ)), (2, 7)]).map Prod.fst) ≤ d ∧
            d ≤ maxList (([((0 : ℤ), (5 : ℚ)), (2, 7)]).map Prod.fst)
        then 1 else 0) ∧
    (∀ p ∈ prepare_data [((0 : ℤ), (5 : ℚ)), (2, 7)],
      (∀ t ∈ [((0 : ℤ), (5 : ℚ)), (2, 7)], t.1 ≠ p.1) → p.2 = 0)) :=
  ⟨by decide, C7_daily_series_contiguous [((0 : ℤ), (5 : ℚ)), (2, 7)] (by decide)⟩

/-! Section: Forecasting engine (`LSTMPredictor`, `src/utils/predictor.py`).
NumPy float arithmetic is modelled exactly over `ℚ`; the draws of
`np.random.normal(0, 0.1 * daily_pred)` are an oracle `jitter : ℕ → ℚ`
(one value per horizon day — the normal distribution's support is all of
ℝ, so any rational is a possible draw); the trained network's
inverse-scaled autoregressive outputs are an oracle `out : ℕ → ℚ`. -/

/-- NumPy `np.mean` (the `0/0` convention for an empty list is irrelevant: the
source never takes a mean of an empty array on the embedded paths). -/
def listMean (l : List ℚ) : ℚ := l.sum / l.length

/-- Python `xs[-n:]`. -/
def lastN (n : ℕ) (l : List ℚ) : List ℚ := l.drop (l.length - n)

/-- The vector `weekly_multipliers = [1.0, 0.9, 0.9, 0.9, 0.9, 1.1, 1.2]` (line 240). -/
def weekly_multipliers : List ℚ := [1, 9/10, 9/10, 9/10, 9/10, 11/10, 12/10]

/-- NumPy `np.std(amounts)^2`: the population variance. -/
def popVariance (l : List ℚ) : ℚ := listMean (l.map (fun x => (x - listMean l)^2))

/-- The per-tier quantities of `statistical_prediction` (lines 186–232). -/
structure StatParams where
  base : ℚ
  confidence : ℚ
  trend : ℚ
  method_detail : String

/-- The tier selection of `statistical_prediction`.  The source compares
`cv = np.std(amounts) / overall_avg` against `0.3 / 0.5 / 0.8`; since
`std = sqrt(variance)` is irrational, the comparison is embedded in the
exactly equivalent squared form `variance < t² * overall_avg²` (both sides
of `std < t * overall_avg` are nonnegative when `overall_avg > 0`, and the
source substitutes `cv = 1`, landing in the 50-tier, otherwise). -/
def statParams (amounts : List ℚ) : StatParams :=
  let overall_avg := listMean amounts
  if amounts.length < 7 then
    ⟨overall_avg, 40, 0, "simple_average"⟩
  else if amounts.length < 14 then
    let recent_avg := listMean (lastN 7 amounts)
    ⟨recent_avg * (7/10) + overall_avg * (3/10), 55, 0, "recent_weighted"⟩
  else
    let recent_7 := listMean (lastN 7 amounts)
    let recent_14 := listMean (lastN 14 amounts)
    let recent_30 := if 30 ≤ amounts.length then listMean (lastN 30 amounts) else recent_14
    let trend := (recent_7 - recent_14) * (1/10)
    let base := recent_7 * (4/10) + recent_14 * (3/10) + recent_30 * (2/10)
        + overall_avg * (1/10)
    let conf : ℚ :=
      if 0 < overall_avg then
        if popVariance amounts < (9/100) * overall_avg ^ 2 then 80
        else if popVariance amounts < (25/100) * overall_avg ^ 2 then 70
        else if popVariance amounts < (64/100) * overall_avg ^ 2 then 60
        else 50
      else 50
    ⟨base, conf, trend, "weighted_trend"⟩

/-- One day's prediction before the random variation (lines 242–252): the
base prediction times the day-of-week multiplier, plus the small trend
adjustment when at least 14 days of history exist. -/
def statPre (amounts : List ℚ) (d : ℕ) : ℚ :=
  let daily := (statParams amounts).base * weekly_multipliers.getD (d % 7) 0
  if 14 ≤ amounts.length then
    daily + (statParams amounts).trend * ((d : ℚ) + 1) * (2/100)
  else daily

/-- The prediction loop (lines 242–258): per day, add the sampled variation
and clamp below at 0. -/
def statPredictions (amounts : List ℚ) (days : ℕ) (jitter : ℕ → ℚ) : List ℚ :=
  (List.range days).map (fun d => max 0 (statPre amounts d + jitter d))

/-- The result dictionary of the forecasting engine (the fields all claims
speak about). -/
structure ForecastResult where
  predictions : List ℚ
  daily_average : ℚ
  total_predicted : ℚ
  method : String
  confidence : ℚ
  confidence_level : String

/-- Python `'high' if confidence > 75 else 'medium' if confidence > 60 else 'low'`. -/
def confLevel (c : ℚ) : String :=
  if 75 < c then "high" else if 60 < c then "medium" else "low"

/-- Function `statistical_prediction` (lines 164–277): the empty-history fallback
dictionary, else tiered base prediction, per-day loop, and aggregates. -/
def statistical_prediction (amounts : List ℚ) (days : ℕ) (jitter : ℕ → ℚ) :
    ForecastResult :=
  if amounts.length = 0 then
    ⟨List.replicate days 100, 100, 100 * days, "fallback", 30, "low"⟩
  else
    let preds := statPredictions amounts days jitter
    ⟨preds, listMean preds, preds.sum, "statistical",
      (statParams amounts).confidence, confLevel (statParams amounts).confidence⟩

/-- Function `lstm_prediction` (lines 105–162): with the model and scaler loaded,
run the autoregressive loop (whose inverse-scaled outputs are the oracle
`out`), clamp each prediction at 0, and report confidence 85. -/
def lstm_prediction (out : ℕ → ℚ) (dailyLen days : ℕ) : Option ForecastResult :=
  if dailyLen < 7 then none
  else
    let preds := (List.range days).map (fun d => max 0 (out d))
    some ⟨preds, listMean preds, preds.sum, "lstm", 85, "high"⟩

/-- Whether the model and scaler artifacts both loaded, and the model's
output oracle. -/
structure ModelState where
  available : Bool
  out : ℕ → ℚ

/-- The `except`-clause dictionary of `predict_spending` (lines 351–361). -/
def errorFallback (days : ℕ) : ForecastResult :=
  ⟨List.replicate days 150, 150, 150 * days, "error_fallback", 30, "low"⟩

/-- The LSTM attempt inside `predict_spending` (lines 311–325): only with
both artifacts and at least `sequence_length = 7` daily points, and the
result is kept only when its daily average is positive. -/
def lstmGate (m : ModelState) (dailyLen days : ℕ) : Option ForecastResult :=
  if m.available ∧ 7 ≤ dailyLen then
    match lstm_prediction m.out dailyLen days with
    | some r => if 0 < r.daily_average then some r else none
    | none => none
  else none

/-- The `try`-block of `predict_spending` (lines 298–344): prepare the daily
series, `raise ValueError` when it is empty, attempt the LSTM path, fall
back to the statistical path, and substitute the raw historical mean when
the resulting daily average is non-positive. -/
def predict_spending_try (m : ModelState) (txs : List (ℤ × ℚ)) (days : ℕ)
    (jitter : ℕ → ℚ) : Except String ForecastResult :=
  let daily := prepare_data txs
  if daily.length = 0 then .error "No valid data for prediction"
  else
    let amounts := daily.map Prod.snd
    match lstmGate m daily.length days with
    | some r => .ok r
    | none =>
      let result := statistical_prediction amounts days jitter
      if result.daily_average ≤ 0 then
        let avg := listMean amounts
        .ok { result with
                daily_average := avg,
                total_predicted := avg * days,
                predictions := List.replicate days avg }
      else .ok result

/-- Function `predict_spending` as its caller observes it: the function's own
`except Exception` handler (line 346) catches everything — the
`ValueError` it raised for empty input included — and converts it into the
`error_fallback` result, so an exceptional outcome never escapes. -/
def predict_spending (m : ModelState) (txs : List (ℤ × ℚ)) (days : ℕ)
    (jitter : ℕ → ℚ) : Except String ForecastResult :=
  match predict_spending_try m txs days jitter with
  | .ok r => .ok r
  | .error _ => .ok (errorFallback days)

/-- C1 counterexample: The claim says the engine raises
`NoValidDataError`/`EmptyInputError` on empty input; in fact
`predict_spending`'s own `except` clause catches the `ValueError` it
raised, and the caller receives the `error_fallback` `ForecastResult`
(method `error_fallback`, confidence 30) — an ordinary return, never an
exceptional outcome. -/
theorem C1_counterexample_empty_input_returns_fallback :
    predict_spending ⟨false, fun _ => 0⟩ [] 30 (fun _ => 0)
        = .ok (errorFallback 30) ∧
    (errorFallback 30).method = "error_fallback" := by
  exact ⟨rfl, rfl⟩

/-- C1 amended: The engine never raises to its caller for any input:
every call returns an ordinary `ForecastResult`; in particular an empty
transaction set yields the `error_fallback` result (its internal
`ValueError` being swallowed by its own handler) rather than an exception. -/
theorem C1_amended_never_raises (m : ModelState) (txs : List (ℤ × ℚ))
    (days : ℕ) (jitter : ℕ → ℚ) :
    (∃ r : ForecastResult, predict_spending m txs days jitter = .ok r) ∧
    (txs = [] → predict_spending m txs days jitter = .ok (errorFallback days)) := by
  constructor
  · unfold predict_spending
    cases h : predict_spending_try m txs days jitter with
    | ok r => exact ⟨r, rfl⟩
    | error e => exact ⟨errorFallback days, rfl⟩
  · rintro rfl
    rfl

/-- C1 witness: the amended theorem applied to a concrete empty call. -/
theorem C1_amended_never_raises_witness :
    (([] : List (ℤ × ℚ)) = []) ∧
    predict_spending ⟨true, fun _ => 5⟩ [] 14 (fun _ => 1)
        = .ok (errorFallback 14) :=
  ⟨rfl, (C1_amended_never_raises ⟨true, fun _ => 5⟩ [] 14 (fun _ => 1)).2 rfl⟩

theorem statParams_rep7 :
    statParams (List.replicate 7 (100 : ℚ)) = ⟨100, 55, 0, "recent_weighted"⟩ := by
  simp only [statParams]
  rw [if_neg (by simp), if_pos (by simp)]
  have h1 : listMean (lastN 7 (List.replicate 7 (100 : ℚ))) = 100 := by
    norm_num [lastN, listMean, List.sum_replicate, nsmul_eq_mul]
  have h2 : listMean (List.replicate 7 (100 : ℚ)) = 100 := by
    norm_num [listMean, List.sum_replicate, nsmul_eq_mul]
  rw [h1, h2]
  norm_num [StatParams.mk.injEq]

theorem statPre_rep7 (d : ℕ) :
    statPre (List.replicate 7 (100 : ℚ)) d
      = 100 * weekly_multipliers.getD (d % 7) 0 := by
  simp only [statPre]
  rw [if_neg (by simp), statParams_rep7]

/-- C3 counterexample: With 7 identical days of 100, day index 6 takes
the Sunday multiplier 1.2, so its pre-jitter prediction is 120 — outside
the claimed ±15 % band around 100. -/
theorem C3_counterexample_sunday_multiplier :
    statPre (List.replicate 7 (100 : ℚ)) 6 = 120 ∧
    ¬ (|statPre (List.replicate 7 (100 : ℚ)) 6 - 100| ≤ (15/100) * 100) := by
  have h : statPre (List.replicate 7 (100 : ℚ)) 6 = 120 := by
    rw [statPre_rep7]
    norm_num [weekly_multipliers]
  exact ⟨h, by rw [h]; norm_num [abs]⟩

/-- C3 amended: For 7–13 daily points with no model artifacts the
statistical path uses base `0.7 * mean(last 7) + 0.3 * overall mean` with
confidence 55 and method `statistical`; for 7 identical days of 100 each
pre-jitter per-day prediction lies within ±20 % of 100 (not ±15 %: the
weekend multiplier 1.2 reaches exactly +20 %). -/
theorem C3_amended_recent_weighted_tier (amounts : List ℚ) (days : ℕ) (j : ℕ → ℚ)
    (h7 : 7 ≤ amounts.length) (h13 : amounts.length ≤ 13) :
    (statParams amounts).base
        = (7/10) * listMean (lastN 7 amounts) + (3/10) * listMean amounts ∧
    (statParams amounts).confidence = 55 ∧
    (statistical_prediction amounts days j).method = "statistical" ∧
    (statistical_prediction amounts days j).confidence = 55 ∧
    (∀ d : ℕ, |statPre (List.replicate 7 (100 : ℚ)) d - 100| ≤ (20/100) * 100) := by
  have hsp : statParams amounts
      = ⟨listMean (lastN 7 amounts) * (7/10) + listMean amounts * (3/10), 55, 0,
          "recent_weighted"⟩ := by
    simp only [statParams]
    rw [if_neg (by omega), if_pos (by omega)]
  have hne : ¬ amounts.length = 0 := by omega
  refine ⟨by rw [hsp]; ring, by rw [hsp], ?_, ?_, ?_⟩
  · simp only [statistical_prediction]
    rw [if_neg hne]
  · simp only [statistical_prediction]
    rw [if_neg hne]
    show (statParams amounts).confidence = 55
    rw [hsp]
  · intro d
    rw [statPre_rep7]
    have hd : d % 7 = 0 ∨ d % 7 = 1 ∨ d % 7 = 2 ∨ d % 7 = 3 ∨ d % 7 = 4 ∨
        d % 7 = 5 ∨ d % 7 = 6 := by omega
    rcases hd with h | h | h | h | h | h | h <;>
      rw [h] <;> norm_num [weekly_multipliers, abs_le]

/-- C3 witness: the amended theorem applied to the 7 × 100 history. -/
theorem C3_amended_recent_weighted_tier_witness :
    7 ≤ (List.replicate 7 (100 : ℚ)).length ∧
    (List.replicate 7 (100 : ℚ)).length ≤ 13 ∧
    ((statParams (List.replicate 7 (100 : ℚ))).base
        = (7/10) * listMean (lastN 7 (List.replicate 7 (100 : ℚ)))
          + (3/10) * listMean (List.replicate 7 (100 : ℚ)) ∧
    (statParams (List.replicate 7 (100 : ℚ))).confidence = 55 ∧
    (statistical_prediction (List.replicate 7 (100 : ℚ)) 30 (fun _ => 0)).method
        = "statistical" ∧
    (statistical_prediction (List.replicate 7 (100 : ℚ)) 30 (fun _ => 0)).confidence
        = 55 ∧
    (∀ d : ℕ, |statPre (List.replicate 7 (100 : ℚ)) d - 100| ≤ (20/100) * 100)) :=
  ⟨by simp, by simp,
    C3_amended_recent_weighted_tier (List.replicate 7 (100 : ℚ)) 30 (fun _ => 0)
      (by simp) (by simp)⟩

theorem statPredictions_getD (amounts : List ℚ) (days : ℕ) (j : ℕ → ℚ) (d : ℕ)
    (hd : d < days) :
    (statPredictions amounts days j).getD d 0 = max 0 (statPre amounts d + j d) := by
  unfold statPredictions
  rw [List.getD_eq_getElem?_getD, List.getElem?_map, List.getElem?_range hd]
  rfl

/-- C6 counterexample: The "jitter" is `np.random.normal(0, 0.1*pred)`,
whose support is unbounded — nothing in the code bounds the added variation
to ±10 %: a draw of 100 on a pre-jitter prediction of 100 yields 200,
exceeding the claimed 10 % band. -/
theorem C6_counterexample_jitter_not_bounded :
    (statPredictions (List.replicate 7 (100 : ℚ)) 30 (fun _ => 100)).getD 0 0 = 200 ∧
    statPre (List.replicate 7 (100 : ℚ)) 0 = 100 ∧
    ¬ (|(200 : ℚ) - 100| ≤ (10/100) * 100) := by
  have h1 : statPre (List.replicate 7 (100 : ℚ)) 0 = 100 := by
    rw [statPre_rep7]
    norm_num [weekly_multipliers]
  refine ⟨?_, h1, by norm_num [abs]⟩
  rw [statPredictions_getD _ _ _ _ (by norm_num), h1]
  norm_num

/-- C6 amended: Each day's base prediction is multiplied by the fixed
vector `[1.0,0.9,0.9,0.9,0.9,1.1,1.2]` (plus the small trend term when at
least 14 days of history exist); the random variation then added is a
normal draw with standard deviation 10 % of the day's prediction — it is
unbounded above (only the final value is clamped below at 0). -/
theorem C6_amended_multiplier_and_unbounded_jitter (amounts : List ℚ) (days : ℕ)
    (j : ℕ → ℚ) (d : ℕ) (hd : d < days) :
    (statPredictions amounts days j).getD d 0 = max 0 (statPre amounts d + j d) ∧
    statPre amounts d
      = (statParams amounts).base * weekly_multipliers.getD (d % 7) 0
        + (if 14 ≤ amounts.length
           then (statParams amounts).trend * ((d : ℚ) + 1) * (2/100) else 0) ∧
    (∀ B : ℚ, ∃ big : ℕ → ℚ, B < (statPredictions amounts days big).getD d 0) := by
  refine ⟨statPredictions_getD _ _ _ _ hd, ?_, ?_⟩
  · simp only [statPre]
    split_ifs <;> ring
  · intro B
    refine ⟨fun _ => B + 1 - statPre amounts d, ?_⟩
    rw [statPredictions_getD _ _ _ _ hd]
    have hsum : statPre amounts d + (B + 1 - statPre amounts d) = B + 1 := by ring
    rw [hsum]
    rcases le_or_lt 0 (B + 1) with h | h
    · exact lt_of_lt_of_le (by linarith) (le_max_right _ _)
    · rw [max_eq_left (by linarith)]
      linarith

/-- C6 witness: the amended theorem at day 0 of a 1-day horizon over the
7 × 100 history. -/
theorem C6_amended_multiplier_and_unbounded_jitter_witness :
    (0 : ℕ) < 1 ∧
    ((statPredictions (List.replicate 7 (100 : ℚ)) 1 (fun _ => 0)).getD 0 0
        = max 0 (statPre (List.replicate 7 (100 : ℚ)) 0 + (fun _ : ℕ => (0 : ℚ)) 0) ∧
    statPre (List.replicate 7 (100 : ℚ)) 0
      = (statParams (List.replicate 7 (100 : ℚ))).base
          * weekly_multipliers.getD (0 % 7) 0
        + (if 14 ≤ (List.replicate 7 (100 : ℚ)).length
           then (statParams (List.replicate 7 (100 : ℚ))).trend
              * (((0 : ℕ) : ℚ) + 1) * (2/100) else 0) ∧
    (∀ B : ℚ, ∃ big : ℕ → ℚ,
      B < (statPredictions (List.replicate 7 (100 : ℚ)) 1 big).getD 0 0)) :=
  ⟨by decide,
    C6_amended_multiplier_and_unbounded_jitter (List.replicate 7 (100 : ℚ)) 1
      (fun _ => 0) 0 (by decide)⟩

theorem sum_replicate_q (n : ℕ) (x : ℚ) : (List.replicate n x).sum = n * x := by
  rw [List.sum_replicate, nsmul_eq_mul]

theorem listMean_nonneg (l : List ℚ) (h : ∀ x ∈ l, 0 ≤ x) : 0 ≤ listMean l := by
  unfold listMean
  exact div_nonneg (List.sum_nonneg h) (by positivity)

theorem sumOn_nonneg (txs : List (ℤ × ℚ)) (h : ∀ t ∈ txs, 0 ≤ t.2) (d : ℤ) :
    0 ≤ sumOn txs d := by
  unfold sumOn
  apply List.sum_nonneg
  intro x hx
  obtain ⟨t, ht, rfl⟩ := List.mem_map.mp hx
  exact h t (List.mem_of_mem_filter ht)

theorem prepare_data_snd_nonneg (txs : List (ℤ × ℚ)) (h : ∀ t ∈ txs, 0 ≤ t.2) :
    ∀ p ∈ prepare_data txs, 0 ≤ p.2 := by
  cases txs with
  | nil =>
    intro p hp
    exact absurd hp (by simp [prepare_data])
  | cons t0 rest =>
    intro p hp
    rw [prepare_data_eq] at hp
    obtain ⟨i, _, rfl⟩ := List.mem_map.mp hp
    exact sumOn_nonneg _ h _

theorem statParams_confidence_bounds (amounts : List ℚ) :
    0 ≤ (statParams amounts).confidence ∧ (statParams amounts).confidence ≤ 100 := by
  simp only [statParams]
  split_ifs <;> exact ⟨by norm_num, by norm_num⟩

/-- The invariant of claim C4, as a predicate on one result. -/
def ResultInv (days : ℕ) (r : ForecastResult) : Prop :=
  r.predictions.length = days ∧ (∀ p ∈ r.predictions, 0 ≤ p) ∧
  r.total_predicted = r.predictions.sum ∧ 0 ≤ r.confidence ∧ r.confidence ≤ 100

theorem statistical_prediction_inv (amounts : List ℚ) (days : ℕ) (j : ℕ → ℚ) :
    ResultInv days (statistical_prediction amounts days j) := by
  unfold ResultInv statistical_prediction
  by_cases h : amounts.length = 0
  · rw [if_pos h]
    refine ⟨by simp, ?_, ?_, by norm_num, by norm_num⟩
    · intro p hp
      rw [List.eq_of_mem_replicate hp]
      norm_num
    · show (100 : ℚ) * days = (List.replicate days (100 : ℚ)).sum
      rw [sum_replicate_q]
      ring
  · rw [if_neg h]
    refine ⟨by simp [statPredictions], ?_, rfl, (statParams_confidence_bounds amounts).1,
      (statParams_confidence_bounds amounts).2⟩
    intro p hp
    obtain ⟨d, _, rfl⟩ := List.mem_map.mp hp
    exact le_max_left _ _

theorem lstm_prediction_inv (out : ℕ → ℚ) (dailyLen days : ℕ) (r : ForecastResult)
    (h : lstm_prediction out dailyLen days = some r) : ResultInv days r := by
  unfold lstm_prediction at h
  by_cases h7 : dailyLen < 7
  · rw [if_pos h7] at h
    exact absurd h (by simp)
  · rw [if_neg h7] at h
    have hv := Option.some.inj h
    rw [← hv]
    unfold ResultInv
    refine ⟨by simp, ?_, rfl, by norm_num, by norm_num⟩
    intro p hp
    obtain ⟨d, _, rfl⟩ := List.mem_map.mp hp
    exact le_max_left _ _

theorem lstmGate_inv (m : ModelState) (dailyLen days : ℕ) (r : ForecastResult)
    (h : lstmGate m dailyLen days = some r) : ResultInv days r := by
  unfold lstmGate at h
  split_ifs at h with hc
  cases hl : lstm_prediction m.out dailyLen days with
  | none =>
    rw [hl] at h
    exact absurd h (by simp)
  | some r0 =>
    rw [hl] at h
    dsimp only at h
    split_ifs at h with hd
    rw [← Option.some.inj h]
    exact lstm_prediction_inv m.out dailyLen days r0 hl

/-- C4: Whatever path produced it (sequence model, statistical,
validation substitution, or error fallback), the `ForecastResult` handed to
the caller has exactly `days` predictions, all nonnegative, a total equal
to their sum, and a confidence in `[0, 100]`.  The hypotheses restrict to
the engine's contractual inputs: transaction amounts are positive by the
normalization invariant, and the horizon is at least one day (the source
computes `np.mean` of the predictions, which for a zero-day horizon would
be NaN and leave the rational model). -/
theorem C4_forecast_result_invariants (m : ModelState) (txs : List (ℤ × ℚ))
    (days : ℕ) (j : ℕ → ℚ) (r : ForecastResult)
    (hpos : ∀ t ∈ txs, 0 ≤ t.2) (hdays : 0 < days)
    (hr : predict_spending m txs days j = .ok r) :
    r.predictions.length = days ∧ (∀ p ∈ r.predictions, 0 ≤ p) ∧
    r.total_predicted = r.predictions.sum ∧ 0 ≤ r.confidence ∧ r.confidence ≤ 100 := by
  have main : ResultInv days r := by
    unfold predict_spending at hr
    cases ht : predict_spending_try m txs days j with
    | error e =>
      rw [ht] at hr
      rw [← Except.ok.inj hr]
      unfold ResultInv errorFallback
      refine ⟨by simp, ?_, ?_, by norm_num, by norm_num⟩
      · intro p hp
        rw [List.eq_of_mem_replicate hp]
        norm_num
      · show (150 : ℚ) * days = (List.replicate days (150 : ℚ)).sum
        rw [sum_replicate_q]
        ring
    | ok r0 =>
      rw [ht] at hr
      rw [← Except.ok.inj hr]
      simp only [predict_spending_try] at ht
      by_cases hlen : (prepare_data txs).length = 0
      · rw [if_pos hlen] at ht
        exact absurd ht (by simp)
      · rw [if_neg hlen] at ht
        have hnn : ∀ a ∈ (prepare_data txs).map Prod.snd, 0 ≤ a := by
          intro a ha
          obtain ⟨p, hp, rfl⟩ := List.mem_map.mp ha
          exact prepare_data_snd_nonneg txs hpos p hp
        cases hg : lstmGate m (prepare_data txs).length days with
        | some rl =>
          rw [hg] at ht
          rw [← Except.ok.inj ht]
          exact lstmGate_inv m _ days rl hg
        | none =>
          rw [hg] at ht
          set res := statistical_prediction ((prepare_data txs).map Prod.snd) days j
            with hres
          have hinv : ResultInv days res := statistical_prediction_inv _ days j
          by_cases hda : res.daily_average ≤ 0
          · rw [if_pos hda] at ht
            rw [← Except.ok.inj ht]
            unfold ResultInv
            have havg : 0 ≤ listMean ((prepare_data txs).map Prod.snd) :=
              listMean_nonneg _ hnn
            refine ⟨by simp, ?_, ?_, hinv.2.2.2.1, hinv.2.2.2.2⟩
            · intro p hp
              rw [List.eq_of_mem_replicate hp]
              exact havg
            · show listMean _ * (days : ℚ) = (List.replicate days _).sum
              rw [sum_replicate_q]
              ring
          · rw [if_neg hda] at ht
            rw [← Except.ok.inj ht]
            exact hinv
  exact main

/-- C4 witness: the invariants at a concrete call (empty input, horizon
1, no model), whose result is the error fallback. -/
theorem C4_forecast_result_invariants_witness :
    (∀ t ∈ ([] : List (ℤ × ℚ)), 0 ≤ t.2) ∧ 0 < 1 ∧
    predict_spending ⟨false, fun _ => 0⟩ [] 1 (fun _ => 0) = .ok (errorFallback 1) ∧
    ((errorFallback 1).predictions.length = 1 ∧
     (∀ p ∈ (errorFallback 1).predictions, 0 ≤ p) ∧
     (errorFallback 1).total_predicted = (errorFallback 1).predictions.sum ∧
     0 ≤ (errorFallback 1).confidence ∧ (errorFallback 1).confidence ≤ 100) :=
  ⟨by simp, by decide, rfl,
    C4_forecast_result_invariants ⟨false, fun _ => 0⟩ [] 1 (fun _ => 0)
      (errorFallback 1) (by simp) (by decide) rfl⟩

end BudgetWise
